import Mathlib

/-!
# Verification of the ArchiveManager event-correlation core

Shallow embedding of `src/handlers/archiveManager/ArchiveManager.ts` from the
`node-deepstackai-trigger` repository.

Modelling conventions:
* JavaScript strings are modelled as `List Char` (`Str`).
* JavaScript `Date` values are modelled as `Option Int` (`JsDate`): `some t` is a
  valid date holding `t` milliseconds since the Unix epoch, `none` is an
  `Invalid Date` (whose numeric value is `NaN`, so every comparison with it is
  false).
* The filesystem is external: the glob-based companion discovery
  (`getPossibleFiles`) is passed to `archive` as an input list, and the
  `move`/`remove` primitives are passed as boolean success oracles; the calls the
  code would make are reified as a `FileOp` list so that their effect on a disk
  (modelled as a list of paths) can be computed.
* `new Date()` occurrences are passed in as an explicit `now` parameter.
-/

namespace ArchiveManagerSpec

/-- JavaScript strings, modelled as their character sequences. -/
abbrev Str := List Char

/-- Conversion of a Lean string literal into the model's string type. -/
def strLit (s : String) : Str := s.toList

/-- JavaScript `Date`: `some t` = `t` ms since epoch, `none` = Invalid Date. -/
abbrev JsDate := Option Int

/-- JavaScript `a <= b` on `Date` values: false whenever either side is invalid
(`NaN` comparisons are always false). -/
def dateLe : JsDate → JsDate → Bool
  | some x, some y => x ≤ y
  | _, _ => false

/-- JavaScript `a < b` on `Date` values, false on invalid dates. -/
def dateLt : JsDate → JsDate → Bool
  | some x, some y => x < y
  | _, _ => false

/-- JavaScript `a >= b` on `Date` values, false on invalid dates. -/
def dateGe (a b : JsDate) : Bool := dateLe b a

/-- `moment(d).add(k, "milliseconds")`: shifting an invalid date stays invalid. -/
def addMs (d : JsDate) (k : Int) : JsDate := d.map (· + k)

/-- Index of the last occurrence of a character, if any
(JavaScript `String.prototype.lastIndexOf` restricted to found/not-found). -/
def lastIndexOf? : Str → Char → Option Nat
  | [], _ => none
  | x :: xs, c =>
    match lastIndexOf? xs c with
    | some i => some (i + 1)
    | none => if x = c then some 0 else none

/-- JavaScript `lastIndexOf`, returning `-1` when absent. -/
def jsLastIndexOf (s : Str) (c : Char) : Int :=
  match lastIndexOf? s c with
  | some i => (i : Int)
  | none => -1

/-- JavaScript `String.prototype.substring`, with its clamping of the two
indices to `[0, length]` and swapping when given in the wrong order. -/
def jsSubstring (s : Str) (a b : Int) : Str :=
  let n : Int := s.length
  let i := (max 0 (min a n)).toNat
  let j := (max 0 (min b n)).toNat
  if i ≤ j then (s.take j).drop i else (s.take i).drop j

/-- Whether `pat` occurs at the head of `s`. -/
def strStartsWith : Str → Str → Bool
  | _, [] => true
  | [], _ :: _ => false
  | x :: xs, y :: ys => x = y && strStartsWith xs ys

/-- JavaScript `s.indexOf(sub) >= 0`: whether `sub` occurs inside `s`. -/
def strContains (s sub : Str) : Bool :=
  match s with
  | [] => strStartsWith [] sub
  | x :: xs => strStartsWith (x :: xs) sub || strContains xs sub

/-- JavaScript `String.prototype.replace` with a plain-string pattern: replaces
only the first occurrence of `pat`, leaving `s` unchanged when `pat` is absent. -/
def replaceFirst (s pat repl : Str) : Str :=
  match s with
  | [] => if pat = [] then repl else []
  | x :: xs =>
    if strStartsWith (x :: xs) pat then repl ++ (x :: xs).drop pat.length
    else x :: replaceFirst xs pat repl

/-- Node `path.basename` for paths without a trailing slash: the part after the
last `/`. -/
def basename (p : Str) : Str :=
  match lastIndexOf? p '/' with
  | none => p
  | some i => p.drop (i + 1)

/-- Node `path.dirname` for paths without a trailing slash. -/
def dirname (p : Str) : Str :=
  match lastIndexOf? p '/' with
  | none => strLit "."
  | some i => if i = 0 then strLit "/" else p.take i

/-- Node `path.join` on already-normalized segments: empty segments are
dropped and the rest are joined with `/`. -/
def joinPath (ps : List Str) : Str :=
  List.intercalate (strLit "/") (ps.filter (fun p => !p.isEmpty))

/-! ## Calendar arithmetic (the fragment of `moment` the code uses)

Civil-calendar conversions between `(year, month, day)` triples and days since
the Unix epoch, using the standard Gregorian-calendar algorithms. -/

/-- Gregorian leap-year rule. -/
def isLeapYear (y : Int) : Bool :=
  y % 4 = 0 && (y % 100 ≠ 0 || y % 400 = 0)

/-- Number of days in a month of the proleptic Gregorian calendar. -/
def daysInMonth (y m : Int) : Int :=
  if m = 2 then (if isLeapYear y then 29 else 28)
  else if m = 4 ∨ m = 6 ∨ m = 9 ∨ m = 11 then 30
  else 31

/-- Days since 1970-01-01 of a civil date. -/
def daysFromCivil (y m d : Int) : Int :=
  let y1 := if m ≤ 2 then y - 1 else y
  let era := y1.fdiv 400
  let yoe := y1 - era * 400
  let mp := (m + 9).emod 12
  let doy := (153 * mp + 2).fdiv 5 + d - 1
  let doe := yoe * 365 + yoe.fdiv 4 - yoe.fdiv 100 + doy
  era * 146097 + doe - 719468

/-- Civil date of a days-since-epoch count. -/
def civilFromDays (z0 : Int) : Int × Int × Int :=
  let z := z0 + 719468
  let era := z.fdiv 146097
  let doe := z - era * 146097
  let yoe := (doe - doe.fdiv 1460 + doe.fdiv 36524 - doe.fdiv 146096).fdiv 365
  let y := yoe + era * 400
  let doy := doe - (365 * yoe + yoe.fdiv 4 - yoe.fdiv 100)
  let mp := (5 * doy + 2).fdiv 153
  let d := doy - (153 * mp + 2).fdiv 5 + 1
  let m := mp + (if mp < 10 then 3 else -9)
  (if m ≤ 2 then y + 1 else y, m, d)

/-- Decimal digits of `n`, left-padded with zeros to width `w`. -/
def padNum (n : Int) (w : Nat) : Str :=
  let ds := Nat.toDigits 10 n.toNat
  List.replicate (w - ds.length) '0' ++ ds

/-- Value of a decimal digit string. -/
def digitsToInt (s : Str) : Int :=
  s.foldl (fun a c => a * 10 + ((c.toNat : Int) - 48)) 0

/-- `moment(s, "YYYYMMDDHHmmss")`: parses a 14-digit timestamp into epoch
milliseconds, yielding an invalid date on any malformed or out-of-range
component (month 13, day 32, hour 24, ...). -/
def parseTimestamp (s : Str) : JsDate :=
  if s.length = 14 ∧ s.all Char.isDigit then
    let y := digitsToInt (s.take 4)
    let mo := digitsToInt ((s.drop 4).take 2)
    let d := digitsToInt ((s.drop 6).take 2)
    let h := digitsToInt ((s.drop 8).take 2)
    let mi := digitsToInt ((s.drop 10).take 2)
    let sec := digitsToInt ((s.drop 12).take 2)
    if 1 ≤ mo ∧ mo ≤ 12 ∧ 1 ≤ d ∧ d ≤ daysInMonth y mo ∧ h ≤ 23 ∧ mi ≤ 59 ∧ sec ≤ 59 then
      some (daysFromCivil y mo d * 86400000 + h * 3600000 + mi * 60000 + sec * 1000)
    else none
  else none

/-- `moment(d).format("YYYY/MM/DD")`. -/
def formatYMD : JsDate → Str
  | none => strLit "Invalid date"
  | some t =>
    match civilFromDays (t.fdiv 86400000) with
    | (y, m, d) => padNum y 4 ++ strLit "/" ++ padNum m 2 ++ strLit "/" ++ padNum d 2

/-- `moment(d).format("HHmmss")`. -/
def formatHMS : JsDate → Str
  | none => strLit "Invalid date"
  | some t =>
    let ms := t.fmod 86400000
    padNum (ms.fdiv 3600000) 2 ++ padNum ((ms.fdiv 60000).fmod 60) 2 ++
      padNum ((ms.fdiv 1000).fmod 60) 2

/-! ## Data model (`Element`, `MotionEvent`, configuration) -/

/-- Action-name strings used by the code (`'move'`). -/
def strMove : Str := strLit "move"

/-- Action-name strings used by the code (`'remove'`). -/
def strRemove : Str := strLit "remove"

/-- `ArchiveManager.ArchiveFolder`. -/
def ArchiveFolder : Str := strLit "archive"

/-- `ArchiveManager.SemiMatchedFolder`. -/
def SemiMatchedFolder : Str := strLit "maybeMatched"

/-- Modelled from the spec: `LocalStorageManager.Locations.Annotations`
(the auxiliary annotations subfolder name, `[annotations/]` in the on-disk
layout). `LocalStorageManager` is not among the provided sources. -/
def annotationsLoc : Str := strLit "annotations"

/-- `MotionEvent.possiblePostfixed`. -/
def possiblePostfixed : List Str := [strLit "_att"]

/-- `MotionEvent.longesEventDuration` (seconds), as milliseconds. -/
def longesEventDurationMs : Int := 15000

/-- The `Element` record type of a registered file. `folder` is an `Option`
because the `folder` argument of `markFileForAction` may be omitted
(`undefined`). -/
structure Element where
  action : Str
  file : Str
  attempt : Nat
  success : Bool
  folder : Option Str
  dateAdded : JsDate
  dateToArchive : JsDate
deriving DecidableEq, Repr

/-- The `MotionEvent` class state. -/
structure MotionEvent where
  eventId : Str
  startTime : JsDate
  basePath : Str
  elements : List Element
deriving DecidableEq, Repr

/-- The archive configuration consumed by the core
(`ArchiveConfig` / `IArchiveManagerJson`): enabled flag, retention in
milliseconds, semi-match toggle. -/
structure ArchiveConfig where
  enabled : Bool
  timeToKeep : Int
  semiMatchedArchiveEnabled : Bool
deriving DecidableEq, Repr

/-- The per-prediction flag record (`TriggerFlags`). -/
structure TriggerFlags where
  registered : Bool
  confidenceThresholdMet : Bool
  blockingMaskOverlap : Bool
  activeRegionOverlap : Bool
  isTriggered : Bool
deriving DecidableEq, Repr

/-- A reified call to one of the file-operation primitives. -/
inductive FileOp where
  | move (file dest : Str)
  | remove (file : Str)
deriving DecidableEq, Repr

/-- The file a `FileOp` touches. -/
def FileOp.file : FileOp → Str
  | .move f _ => f
  | .remove f => f

/-- JavaScript truthiness of an optional string (`undefined`, `null` and `""`
are falsy). -/
def truthyOpt : Option Str → Bool
  | none => false
  | some s => !s.isEmpty

/-- JavaScript `a || b` on optional strings. -/
def jsOr (a b : Option Str) : Option Str := if truthyOpt a then a else b

/-! ## MotionEvent operations -/

/-- `MotionEvent.replace`: takes the other event's identity and base path, the
earlier of the two start times, and concatenates the element lists. -/
def replaceEv (self other : MotionEvent) : MotionEvent :=
  { eventId := other.eventId
    startTime := if dateLe other.startTime self.startTime then other.startTime else self.startTime
    basePath := other.basePath
    elements := self.elements ++ other.elements }

/-- `MotionEvent.isSame`: `none` = `{same: false}`, `some ro` =
`{same: true, rightOrder: ro}`. -/
def isSame (self other : MotionEvent) : Option Bool :=
  if other.eventId ≠ self.eventId then none
  else if dateGe other.startTime self.startTime &&
      dateLt other.startTime (addMs self.startTime longesEventDurationMs) then some true
  else if dateGe self.startTime other.startTime &&
      dateLt self.startTime (addMs other.startTime longesEventDurationMs) then some false
  else none

/-- `MotionEvent.canAction`: the fold
`reduce((p, c) => p && c.dateToArchive <= new Date(), true)`. -/
def canAction (ev : MotionEvent) (now : Int) : Bool :=
  ev.elements.foldl (fun p c => p && dateLe c.dateToArchive (some now)) true

/-- `MotionEvent.isArchived`. -/
def isArchived (ev : MotionEvent) : Bool :=
  (ev.elements.filter (fun e => !e.success && e.attempt ≤ 3)).length = 0

/-- The fold step of the `destinationFolder` reduce in `MotionEvent.archive`
(`(c == p || c == null) ? p : p == null ? c : null` — `c` is always a truthy
string here because of the preceding filter). -/
def folderStep (p : Option Str) (c : Str) : Option Str :=
  if p = some c then p
  else match p with
    | none => some c
    | some _ => none

/-- The event-wide `destinationFolder` computed in `MotionEvent.archive`:
`elements.filter(f => f.action === 'move' && f.folder).map(f => f.folder).reduce(..., null)`. -/
def destFolder (ev : MotionEvent) : Option Str :=
  ((ev.elements.filter (fun f => f.action = strMove && truthyOpt f.folder)).map
    (fun f => f.folder.getD [])).foldl folderStep none

/-- `MotionEvent.getDestinationFolderForFile`. -/
def getDestinationFolderForFile (ev : MotionEvent) (f : Str) (folder : Option Str) : Str :=
  let subFolder := if strContains f annotationsLoc then annotationsLoc else []
  joinPath [if truthyOpt folder then folder.getD [] else ArchiveFolder,
    formatYMD ev.startTime, ev.eventId, formatHMS ev.startTime, subFolder]

/-- The per-registered-element branch of `MotionEvent.archive`: increment the
attempt counter, then move when the element or the event-wide action is
`'move'`, else remove; record success from the primitive's result. -/
def elementRun (ev : MotionEvent) (mainAction : Str) (destinationFolder : Option Str)
    (mv : Str → Str → Bool) (rm : Str → Bool) (e : Element) : Element :=
  let e1 := { e with attempt := e.attempt + 1 }
  if e.action = strMove ∨ mainAction = strMove then
    { e1 with success := mv e.file (getDestinationFolderForFile ev e.file (jsOr destinationFolder e.folder)) }
  else
    { e1 with success := rm e.file }

/-- The primitive call made for a registered element in `MotionEvent.archive`. -/
def elementOp (ev : MotionEvent) (mainAction : Str) (destinationFolder : Option Str)
    (e : Element) : FileOp :=
  if e.action = strMove ∨ mainAction = strMove then
    FileOp.move e.file (getDestinationFolderForFile ev e.file (jsOr destinationFolder e.folder))
  else
    FileOp.remove e.file

/-- `MotionEvent.archive`. The glob-discovered companion candidates
(`getPossibleFiles`) are an input; the `move`/`remove` primitives are success
oracles and the calls made are returned as a `FileOp` list alongside the
updated event. Returns the event unchanged with no calls when
`checkTimeToKeep && !canAction()`. -/
def archive (ev : MotionEvent) (possibleFiles : List Str) (mv : Str → Str → Bool)
    (rm : Str → Bool) (now : Int) (checkTimeToKeep : Bool) : MotionEvent × List FileOp :=
  if checkTimeToKeep && !canAction ev now then (ev, [])
  else
    let eventMainAction :=
      if 0 < (ev.elements.filter (fun f => f.action = strMove)).length then strMove else strRemove
    let destinationFolder := destFolder ev
    let unregistered :=
      possibleFiles.filter (fun f => (ev.elements.filter (fun e => e.file = f)).length = 0)
    ({ ev with elements := ev.elements.map (elementRun ev eventMainAction destinationFolder mv rm) },
      ev.elements.map (elementOp ev eventMainAction destinationFolder) ++
        unregistered.map (fun f =>
          if eventMainAction = strMove then
            FileOp.move f (getDestinationFolderForFile ev f destinationFolder)
          else FileOp.remove f))

/-- The mutation `MotionEvent.addElement` applies to an already-registered
entry: a `remove` entry takes on the new registration's action, folder and
dates with the attempt counter reset; any other entry is left unchanged. -/
def updateElem (old el : Element) : Element :=
  if old.action = strRemove then
    { old with
      action := el.action
      attempt := 0
      dateAdded := el.dateAdded
      dateToArchive := el.dateToArchive
      folder := el.folder }
  else old

/-- Applies `updateElem` to the first entry with the given file path
(the `filter(...)[0]` object the source mutates in place). -/
def updateFirstMatching : List Element → Element → List Element
  | [], _ => []
  | e :: es, el =>
    if e.file = el.file then updateElem e el :: es
    else e :: updateFirstMatching es el

/-- `MotionEvent.addElement`. -/
def addElement (ev : MotionEvent) (el : Element) : MotionEvent :=
  if ev.elements.filter (fun e => e.file = el.file) = [] then
    { ev with elements := ev.elements ++ [el] }
  else
    { ev with elements := updateFirstMatching ev.elements el }

/-- `MotionEvent.getFromFilePath`. -/
def getFromFilePath (filePath : Str) : MotionEvent :=
  let fileBaseName := basename filePath
  let lastUnderscoreIndex := jsLastIndexOf fileBaseName '_'
  let fileNameDateString :=
    jsSubstring fileBaseName (lastUnderscoreIndex + 1) ((fileBaseName.length : Int) - 4)
  let eventStartTime := addMs (parseTimestamp fileNameDateString) (-3000)
  let eventId := possiblePostfixed.foldl (fun p c => replaceFirst p c [])
    (jsSubstring fileBaseName 0 (lastUnderscoreIndex + 1))
  { eventId := eventId, startTime := eventStartTime, basePath := dirname filePath, elements := [] }

/-! ## ArchiveManager (registry, registration, tick) -/

/-- Replace the element at an index, leaving the list unchanged when out of
range (the in-place mutation of the found registry entry). -/
def modifyAt : List MotionEvent → Nat → (MotionEvent → MotionEvent) → List MotionEvent
  | [], _, _ => []
  | x :: xs, 0, f => f x :: xs
  | x :: xs, n + 1, f => x :: modifyAt xs n f

/-- `ArchiveManager.markFileForAction` as a transition on the registry
(`archiverLog`). `now` stands for the `new Date()` calls. -/
def markFileForAction (log : List MotionEvent) (fileName : Str) (action : Str)
    (config : ArchiveConfig) (folder : Option Str) (now : Int) : List MotionEvent :=
  let event := getFromFilePath fileName
  let el : Element :=
    { action := action, file := fileName, attempt := 0, success := false, folder := folder,
      dateAdded := some now, dateToArchive := some (now + config.timeToKeep) }
  match log.findIdx? (fun ev => (isSame ev event).isSome) with
  | none => log ++ [addElement event el]
  | some i =>
    modifyAt log i (fun ex =>
      addElement (if isSame ex event = some false then replaceEv ex event else ex) el)

/-- `ArchiveManager.removeFile`: gated on the trigger's archive configuration
being present and enabled. -/
def removeFile (log : List MotionEvent) (fileName : Str) (config : Option ArchiveConfig)
    (now : Int) : List MotionEvent :=
  match config with
  | none => log
  | some c =>
    if !c.enabled then log
    else markFileForAction log fileName strRemove c none now

/-- `ArchiveManager.processTrigger`. `predictionsWithFlags` is modelled by the
list of `triggeredFlags` records (the paired predictions are unused by the
code). -/
def processTrigger (log : List MotionEvent) (fileName : Str) (config : Option ArchiveConfig)
    (predictionsWithFlags : Option (List TriggerFlags)) (now : Int) : List MotionEvent :=
  match config with
  | none => log
  | some c =>
    if !c.enabled then log
    else
      match predictionsWithFlags with
      | some ps =>
        if c.semiMatchedArchiveEnabled &&
            0 < (ps.filter (fun f => f.registered && f.confidenceThresholdMet)).length then
          markFileForAction log fileName strMove c (some SemiMatchedFolder) now
        else removeFile log fileName (some c) now
      | none => markFileForAction log fileName strMove c (some ArchiveFolder) now

/-- One pass of `ArchiveManager.runLog`: archive every registry event
(enforcing retention unless shutting down), then drop the events whose
`isArchived()` is true. `discover` supplies each event's `getPossibleFiles()`
result; the second component collects every primitive call made. -/
def tick (log : List MotionEvent) (discover : MotionEvent → List Str)
    (mv : Str → Str → Bool) (rm : Str → Bool) (now : Int) (shutdown : Bool) :
    List MotionEvent × List FileOp :=
  let pairs := log.map (fun ev => archive ev (discover ev) mv rm now (!shutdown))
  ((pairs.map Prod.fst).filter (fun e => !isArchived e), (pairs.map Prod.snd).flatten)

/-! ## Disk model for the file-operation primitives

`ArchiveManager.move` copies the file to
`join(localStoragePath, folderToMoveTo, basename(filePath))` and unlinks the
source; `ArchiveManager.remove` unlinks. A disk is the list of existing paths
(destination paths relative to the storage root). -/

/-- Effect of one primitive call on a disk; a move of an absent file fails and
changes nothing. -/
def applyOp (d : List Str) : FileOp → List Str
  | .move f dest => if f ∈ d then d.erase f ++ [dest ++ strLit "/" ++ basename f] else d
  | .remove f => d.erase f

/-- Effect of a sequence of primitive calls on a disk. -/
def applyOps (d : List Str) (ops : List FileOp) : List Str :=
  ops.foldl applyOp d

/-! ## General lemmas -/

/-- A `reduce` with `&&` is a `List.all`. -/
theorem foldl_and_eq {α : Type} (l : List α) (f : α → Bool) (b : Bool) :
    l.foldl (fun p c => p && f c) b = (b && l.all f) := by
  induction l generalizing b with
  | nil => simp
  | cons x xs ih => simp [List.foldl_cons, ih, Bool.and_assoc]

/-- `canAction` holds exactly when every entry's `dateToArchive` is at or
before `now`. -/
theorem canAction_eq_all (ev : MotionEvent) (now : Int) :
    canAction ev now = ev.elements.all (fun c => dateLe c.dateToArchive (some now)) := by
  simp [canAction, foldl_and_eq]

/-- `isArchived` holds exactly when every entry succeeded or has an attempt
counter strictly above 3. -/
theorem isArchived_iff (ev : MotionEvent) :
    isArchived ev = true ↔ ∀ e ∈ ev.elements, e.success = true ∨ 3 < e.attempt := by
  unfold isArchived
  rw [decide_eq_true_eq, List.length_eq_zero, List.filter_eq_nil_iff]
  constructor
  · intro h e he
    have := h e he
    simp only [Bool.and_eq_true, Bool.not_eq_true', not_and, decide_eq_true_eq] at this
    by_cases hs : e.success = true
    · exact Or.inl hs
    · right
      have := this (Bool.eq_false_iff.mpr (fun hc => hs hc))
      omega
  · intro h e he
    have := h e he
    simp only [Bool.and_eq_true, Bool.not_eq_true', not_and, decide_eq_true_eq]
    intro hs
    rcases this with hsu | hat
    · rw [hsu] at hs; exact absurd hs (by simp)
    · omega

/-- Splitting a list at the first entry with a given file path: the prefix has
no match, and `updateFirstMatching` rewrites exactly that entry. -/
theorem filterHead_split (l : List Element) (el ex : Element)
    (h : (l.filter (fun e => e.file = el.file)).head? = some ex) :
    ∃ l1 l2, l = l1 ++ ex :: l2 ∧ (∀ e ∈ l1, ¬ e.file = el.file) ∧ ex.file = el.file ∧
      updateFirstMatching l el = l1 ++ updateElem ex el :: l2 := by
  induction l with
  | nil => simp at h
  | cons x xs ih =>
    by_cases hx : x.file = el.file
    · have hex : ex = x := by
        rw [List.filter_cons_of_pos (by simpa using hx)] at h
        simpa using h.symm
      subst hex
      exact ⟨[], xs, by simp, by simp, hx, by simp [updateFirstMatching, hx]⟩
    · have h' : (xs.filter (fun e => e.file = el.file)).head? = some ex := by
        rwa [List.filter_cons_of_neg (by simpa using hx)] at h
      obtain ⟨l1, l2, hsplit, hl1, hexf, hupd⟩ := ih h'
      refine ⟨x :: l1, l2, by simp [hsplit], ?_, hexf, ?_⟩
      · intro e he
        rcases List.mem_cons.mp he with rfl | hmem
        · exact hx
        · exact hl1 e hmem
      · simp [updateFirstMatching, hx, hupd]

/-! ## C3 -/

/-- C3: when eligibility is enforced (`checkTimeToKeep = true`), an event with
at least one entry whose eligibility time has not yet passed performs no file
operation at all — no move or remove call is made for any registered entry or
discovered companion, and no entry (in particular no attempt counter) changes. -/
theorem c3_retention_blocks_all_action (ev : MotionEvent) (possibleFiles : List Str)
    (mv : Str → Str → Bool) (rm : Str → Bool) (now : Int)
    (h : ∃ e ∈ ev.elements, dateLe e.dateToArchive (some now) = false) :
    archive ev possibleFiles mv rm now true = (ev, []) := by
  have hca : canAction ev now = false := by
    rw [canAction_eq_all, Bool.eq_false_iff]
    intro hall
    rw [List.all_eq_true] at hall
    rcases h with ⟨e, he, hf⟩
    have := hall e he
    rw [hf] at this
    exact absurd this (by simp)
  simp [archive, hca]

/-- Concrete element blocking its event: eligibility time 10 is after time 5. -/
def elC3 : Element :=
  { action := strRemove, file := strLit "cam_20230101120000.jpg", attempt := 0, success := false,
    folder := none, dateAdded := some 0, dateToArchive := some 10 }

/-- Concrete event for the C3 witness. -/
def evC3 : MotionEvent :=
  { eventId := strLit "cam_", startTime := some 0, basePath := strLit ".", elements := [elC3] }

/-- Witness for C3 at a concrete blocked event. -/
theorem c3_witness :
    archive evC3 [] (fun _ _ => true) (fun _ => true) 5 true = (evC3, []) :=
  c3_retention_blocks_all_action evC3 [] (fun _ _ => true) (fun _ => true) 5
    ⟨elC3, by decide, by decide⟩

/-! ## C7 -/

/-- Concrete event whose move entries carry the distinct non-null folders
`a`, `b`, `a` in that order. -/
def evC7 : MotionEvent :=
  { eventId := strLit "cam_", startTime := some 0, basePath := strLit "."
    elements :=
      [{ action := strMove, file := strLit "f1", attempt := 0, success := false,
         folder := some (strLit "a"), dateAdded := some 0, dateToArchive := some 0 },
       { action := strMove, file := strLit "f2", attempt := 0, success := false,
         folder := some (strLit "b"), dateAdded := some 0, dateToArchive := some 0 },
       { action := strMove, file := strLit "f3", attempt := 0, success := false,
         folder := some (strLit "a"), dateAdded := some 0, dateToArchive := some 0 }] }

/-- C7 counterexample: an aggregate whose move entries carry the two distinct
non-null folders `a` and `b` (in the order `a`, `b`, `a`) does not collapse to
"no folder" — the reduce yields `a`, because the conflict marker `null` is
indistinguishable from its initial accumulator value and is overwritten by the
next folder. -/
theorem c7_conflicting_folders_cex :
    (∀ e ∈ evC7.elements, e.action = strMove) ∧
    evC7.elements.map (fun e => e.folder) =
      [some (strLit "a"), some (strLit "b"), some (strLit "a")] ∧
    strLit "a" ≠ strLit "b" ∧
    destFolder evC7 = some (strLit "a") := by decide

/-- C7 (amended): when the move-action entries carry exactly two folder values
and those are distinct, the event-wide destination folder collapses to "no
folder" regardless of which of the two came first; with further folder values
after a conflict the reduce can instead yield a folder again (see the
counterexample), because `null` marks both "no folder yet" and "conflict". -/
theorem c7_two_conflicting_folders_amended (ev : MotionEvent) (a b : Str) (hab : a ≠ b)
    (h : (ev.elements.filter (fun f => f.action = strMove && truthyOpt f.folder)).map
      (fun f => f.folder.getD []) = [a, b]) :
    destFolder ev = none := by
  unfold destFolder
  rw [h]
  simp [folderStep, hab]

/-- Concrete event with exactly two conflicting move folders `x`, `y`. -/
def evC7w : MotionEvent :=
  { eventId := strLit "cam_", startTime := some 0, basePath := strLit "."
    elements :=
      [{ action := strMove, file := strLit "f1", attempt := 0, success := false,
         folder := some (strLit "x"), dateAdded := some 0, dateToArchive := some 0 },
       { action := strMove, file := strLit "f2", attempt := 0, success := false,
         folder := some (strLit "y"), dateAdded := some 0, dateToArchive := some 0 }] }

/-- Witness for the amended C7 at a concrete two-folder conflict. -/
theorem c7_witness : destFolder evC7w = none :=
  c7_two_conflicting_folders_amended evC7w (strLit "x") (strLit "y") (by decide) (by decide)

/-! ## C8 -/

/-- C8: `addElement` keeps at most one entry per file path. When the path is
already registered the element list keeps its length (nothing is appended) and
only the first matching entry changes: a `remove` entry is upgraded to the new
registration's action with attempt counter reset to 0 and the new folder and
dates, while a `move` entry is left entirely unchanged (so registering `remove`
over `move` leaves the action as `move`). -/
theorem c8_addElement_idempotent_upgrade (ev : MotionEvent) (el ex : Element)
    (h : (ev.elements.filter (fun e => e.file = el.file)).head? = some ex) :
    (addElement ev el).elements.length = ev.elements.length ∧
    ∃ l1 l2, ev.elements = l1 ++ ex :: l2 ∧ (∀ e ∈ l1, ¬ e.file = el.file) ∧
      (addElement ev el).elements =
        l1 ++ (if ex.action = strRemove then
          { ex with
            action := el.action
            attempt := 0
            folder := el.folder
            dateAdded := el.dateAdded
            dateToArchive := el.dateToArchive } else ex) :: l2 := by
  have hne : ev.elements.filter (fun e => e.file = el.file) ≠ [] := by
    intro hnil
    rw [hnil] at h
    simp at h
  obtain ⟨l1, l2, hsplit, hl1, hexf, hupd⟩ := filterHead_split ev.elements el ex h
  have haddeq : (addElement ev el).elements = l1 ++ updateElem ex el :: l2 := by
    unfold addElement
    rw [if_neg hne]
    exact hupd
  refine ⟨?_, l1, l2, hsplit, hl1, ?_⟩
  · rw [haddeq, hsplit]
    simp
  · rw [haddeq]
    unfold updateElem
    split
    · simp_all
    · simp_all

/-- Concrete already-registered `remove` entry for the C8 witness. -/
def exC8 : Element :=
  { action := strRemove, file := strLit "f", attempt := 2, success := false,
    folder := none, dateAdded := some 0, dateToArchive := some 7 }

/-- Concrete event holding `exC8`. -/
def evC8 : MotionEvent :=
  { eventId := strLit "cam_", startTime := some 0, basePath := strLit ".", elements := [exC8] }

/-- Concrete upgrading `move` registration for the C8 witness. -/
def elC8 : Element :=
  { action := strMove, file := strLit "f", attempt := 0, success := false,
    folder := some ArchiveFolder, dateAdded := some 50, dateToArchive := some 60 }

/-- Witness for C8 at a concrete remove-to-move upgrade. -/
theorem c8_witness :
    (addElement evC8 elC8).elements.length = evC8.elements.length ∧
    ∃ l1 l2, evC8.elements = l1 ++ exC8 :: l2 ∧ (∀ e ∈ l1, ¬ e.file = elC8.file) ∧
      (addElement evC8 elC8).elements =
        l1 ++ (if exC8.action = strRemove then
          { exC8 with
            action := elC8.action
            attempt := 0
            folder := elC8.folder
            dateAdded := elC8.dateAdded
            dateToArchive := elC8.dateToArchive } else exC8) :: l2 :=
  c8_addElement_idempotent_upgrade evC8 elC8 exC8 (by decide)

/-! ## C9 -/

/-- C9: re-registering a path whose existing (first matching) entry has action
`remove`, again with action `remove` — the element `markFileForAction` builds
for a removal at time `now` under retention `ttk` — resets that entry's attempt
counter to 0 and replaces its `dateAdded` and `dateToArchive` with the new
registration's values, postponing the action and reviving even an entry whose
retries were exhausted (any previous attempt count is discarded). -/
theorem c9_reregister_remove_revives (ev : MotionEvent) (fileName : Str) (now ttk : Int)
    (ex : Element)
    (h : (ev.elements.filter (fun e => e.file = fileName)).head? = some ex)
    (hex : ex.action = strRemove) :
    ∃ l1 l2, ev.elements = l1 ++ ex :: l2 ∧
      (addElement ev
        { action := strRemove, file := fileName, attempt := 0, success := false,
          folder := none, dateAdded := some now, dateToArchive := some (now + ttk) }).elements =
      l1 ++ { ex with
        action := strRemove
        attempt := 0
        folder := none
        dateAdded := some now
        dateToArchive := some (now + ttk) } :: l2 := by
  have hne : ev.elements.filter (fun e => e.file = fileName) ≠ [] := by
    intro hnil
    rw [hnil] at h
    simp at h
  obtain ⟨l1, l2, hsplit, hl1, hexf, hupd⟩ :=
    filterHead_split ev.elements
      ⟨strRemove, fileName, 0, false, none, some now, some (now + ttk)⟩ ex h
  refine ⟨l1, l2, hsplit, ?_⟩
  unfold addElement
  rw [if_neg hne]
  rw [hupd]
  unfold updateElem
  rw [if_pos hex]

/-- Concrete exhausted `remove` entry (4 failed attempts) for the C9 witness. -/
def exC9 : Element :=
  { action := strRemove, file := strLit "g", attempt := 4, success := false,
    folder := none, dateAdded := some 0, dateToArchive := some 3 }

/-- Concrete event holding `exC9`. -/
def evC9 : MotionEvent :=
  { eventId := strLit "cam_", startTime := some 0, basePath := strLit ".", elements := [exC9] }

/-- Witness for C9: a fresh removal registration at time 100 with retention 20
revives the exhausted entry with attempt count 0 and eligibility 120. -/
theorem c9_witness :
    ∃ l1 l2, evC9.elements = l1 ++ exC9 :: l2 ∧
      (addElement evC9
        { action := strRemove, file := strLit "g", attempt := 0, success := false,
          folder := none, dateAdded := some 100, dateToArchive := some (100 + 20) }).elements =
      l1 ++ { exC9 with
        action := strRemove
        attempt := 0
        folder := none
        dateAdded := some 100
        dateToArchive := some (100 + 20) } :: l2 :=
  c9_reregister_remove_revives evC9 (strLit "g") 100 20 exC9 (by decide) (by decide)

/-- A `filter`-length positivity test is an `any`. -/
theorem length_pos_filter_eq_any {α : Type} (l : List α) (p : α → Bool) :
    decide (0 < (l.filter p).length) = l.any p := by
  induction l with
  | nil => rfl
  | cons x xs ih =>
    by_cases hx : p x <;> simp [List.filter_cons, hx, ← ih]

/-! ## C4 -/

/-- Concrete entry that has already failed twice before the tick. -/
def elC4 : Element :=
  { action := strRemove, file := strLit "f", attempt := 2, success := false,
    folder := none, dateAdded := some 0, dateToArchive := some 0 }

/-- Concrete event holding `elC4`. -/
def evC4 : MotionEvent :=
  { eventId := strLit "cam_", startTime := some 0, basePath := strLit ".", elements := [elC4] }

/-- C4 counterexample: after a tick in which its only entry records its third
failed attempt (attempt counter 3, success false), the event is still in the
registry — the code treats an entry as exhausted only once its attempt counter
exceeds 3, so an entry that has failed 3 attempts is not yet considered
permanently failed and is actioned again on the next pass, contradicting the
claim that such an event is evicted. -/
theorem c4_three_failures_not_evicted_cex :
    (tick [evC4] (fun _ => []) (fun _ _ => false) (fun _ => false) 100 false).1 =
      [{ evC4 with elements := [{ elC4 with attempt := 3, success := false }] }] ∧
    (∀ ev ∈ (tick [evC4] (fun _ => []) (fun _ _ => false) (fun _ => false) 100 false).1,
      ∀ e ∈ ev.elements, e.attempt = 3 ∧ e.success = false) := by decide

/-- C4 (amended): after a tick, an aggregate remains in the registry exactly
when it is the archived image of a registry event some of whose (post-tick)
entries neither succeeded nor have an attempt counter strictly above 3 — an
entry is permanently failed only after its fourth failed attempt, not its
third; moreover every entry of an event that is actioned at all (shutdown or
eligibility passed) is actioned on that pass, regardless of its own success or
attempt state, so exhausted entries of a surviving event are re-actioned. -/
theorem c4_eviction_iff_all_resolved (log : List MotionEvent)
    (discover : MotionEvent → List Str) (mv : Str → Str → Bool) (rm : Str → Bool)
    (now : Int) (sd : Bool) :
    (∀ ev, ev ∈ (tick log discover mv rm now sd).1 ↔
      ((∃ ev0 ∈ log, ev = (archive ev0 (discover ev0) mv rm now (!sd)).1) ∧
        ¬ ∀ e ∈ ev.elements, e.success = true ∨ 3 < e.attempt)) ∧
    (∀ ev0 ∈ log, (sd = true ∨ canAction ev0 now = true) →
      ∀ e ∈ ev0.elements,
        e.file ∈ ((archive ev0 (discover ev0) mv rm now (!sd)).2.map FileOp.file)) := by
  constructor
  · intro ev
    show ev ∈ ((log.map _).map Prod.fst).filter _ ↔ _
    rw [List.mem_filter, List.map_map, List.mem_map]
    constructor
    · rintro ⟨⟨ev0, h0, rfl⟩, hkeep⟩
      refine ⟨⟨ev0, h0, rfl⟩, ?_⟩
      rw [← isArchived_iff]
      simpa using hkeep
    · rintro ⟨⟨ev0, h0, rfl⟩, hunres⟩
      refine ⟨⟨ev0, h0, rfl⟩, ?_⟩
      rw [← isArchived_iff] at hunres
      simpa using hunres
  · intro ev0 h0 hrun e he
    have hnoskip : ((!sd) && !canAction ev0 now) = false := by
      rcases hrun with hsd | hca
      · rw [hsd]; rfl
      · rw [hca]; simp
    unfold archive
    rw [hnoskip]
    simp only [if_false, Bool.false_eq_true, List.map_append, List.map_map]
    apply List.mem_append_left
    rw [List.mem_map]
    refine ⟨e, he, ?_⟩
    show FileOp.file (elementOp _ _ _ e) = e.file
    unfold elementOp
    split <;> split <;> rfl

/-- Witness for the amended C4: the blocked concrete event from the
counterexample tick is indeed kept, and its entry is actioned on the pass. -/
theorem c4_witness :
    ({ evC4 with elements := [{ elC4 with attempt := 3, success := false }] } ∈
      (tick [evC4] (fun _ => []) (fun _ _ => false) (fun _ => false) 100 false).1) ∧
    strLit "f" ∈
      ((archive evC4 [] (fun _ _ => false) (fun _ => false) 100 true).2.map FileOp.file) := by
  have h := c4_eviction_iff_all_resolved [evC4] (fun _ => []) (fun _ _ => false)
    (fun _ => false) 100 false
  constructor
  · exact (h.1 _).mpr ⟨⟨evC4, by decide, by decide⟩, by decide⟩
  · exact h.2 evC4 (by decide) (Or.inr (by decide)) elC4 (by decide)

/-! ## C10 -/

/-- C10: with a `predictionsWithFlags` argument present, a file is registered
for archival only into the semi-match folder, and only when
`semiMatchedArchiveEnabled` is set and some prediction has both the
`registered` and `confidenceThresholdMet` flags; in every other
`predictionsWithFlags` case the file is registered for removal instead — both
paths gated on the archive configuration being enabled (a disabled
configuration registers nothing). Stated on an empty registry, where the
single resulting aggregate exhibits the registered entry. -/
theorem c10_processTrigger_semimatch_gate (fileName : Str) (ps : List TriggerFlags)
    (cfg : ArchiveConfig) (now : Int) :
    processTrigger [] fileName (some cfg) (some ps) now =
      if cfg.enabled then
        if cfg.semiMatchedArchiveEnabled ∧
            ps.any (fun f => f.registered && f.confidenceThresholdMet) then
          [{ getFromFilePath fileName with
             elements := [⟨strMove, fileName, 0, false, some SemiMatchedFolder,
               some now, some (now + cfg.timeToKeep)⟩] }]
        else
          [{ getFromFilePath fileName with
             elements := [⟨strRemove, fileName, 0, false, none,
               some now, some (now + cfg.timeToKeep)⟩] }]
      else [] := by
  by_cases hE : cfg.enabled
  · by_cases hS : cfg.semiMatchedArchiveEnabled = true ∧
        (ps.any (fun f => f.registered && f.confidenceThresholdMet)) = true
    · rcases hS with ⟨h1, h2⟩
      simp [processTrigger, markFileForAction, addElement, getFromFilePath, hE, h1, h2,
        length_pos_filter_eq_any]
    · have hc : (cfg.semiMatchedArchiveEnabled &&
          decide (0 < (ps.filter (fun f => f.registered && f.confidenceThresholdMet)).length)) =
            false := by
        rw [length_pos_filter_eq_any]
        cases c1 : cfg.semiMatchedArchiveEnabled <;>
          cases c2 : ps.any (fun f => f.registered && f.confidenceThresholdMet) <;> simp_all
      have hS2 : ¬(cfg.semiMatchedArchiveEnabled = true ∧
          ∃ x ∈ ps, x.registered = true ∧ x.confidenceThresholdMet = true) := by
        intro hco
        apply hS
        refine ⟨hco.1, ?_⟩
        rw [List.any_eq_true]
        rcases hco.2 with ⟨x, hx, hr, hc2⟩
        exact ⟨x, hx, by simp [hr, hc2]⟩
      simp [processTrigger, removeFile, markFileForAction, addElement, getFromFilePath, hE, hc, hS2]
  · simp [processTrigger, hE]

/-! ## C2 -/

/-- The file paths registered in an event. -/
def filesOf (ev : MotionEvent) : List Str := ev.elements.map Element.file

/-- `updateElem` never changes the entry's file path. -/
theorem updateElem_file (old el : Element) : (updateElem old el).file = old.file := by
  unfold updateElem
  split <;> rfl

/-- `updateFirstMatching` preserves the list of registered file paths. -/
theorem updateFirstMatching_files (l : List Element) (el : Element) :
    (updateFirstMatching l el).map Element.file = l.map Element.file := by
  induction l with
  | nil => rfl
  | cons e es ih =>
    unfold updateFirstMatching
    split
    · simp [updateElem_file]
    · simp [ih]

/-- After `addElement`, both the new element's path and every previously
registered path are registered. -/
theorem addElement_files (ev : MotionEvent) (el : Element) :
    el.file ∈ filesOf (addElement ev el) ∧
    ∀ e ∈ ev.elements, e.file ∈ filesOf (addElement ev el) := by
  unfold addElement filesOf
  split
  · constructor
    · simp
    · intro e he
      simp only [List.map_append, List.mem_append, List.mem_map]
      exact Or.inl ⟨e, he, rfl⟩
  · rename_i hne
    simp only [updateFirstMatching_files]
    constructor
    · rcases List.exists_mem_of_ne_nil _ hne with ⟨x, hx⟩
      have hx' := List.mem_filter.mp hx
      rw [List.mem_map]
      exact ⟨x, hx'.1, by simpa using hx'.2⟩
    · intro e he
      rw [List.mem_map]
      exact ⟨e, he, rfl⟩

/-- Unfolding equation of `markFileForAction`. -/
theorem markFileForAction_eq (log : List MotionEvent) (f a : Str) (k : ArchiveConfig)
    (fo : Option Str) (n : Int) :
    markFileForAction log f a k fo n =
      match log.findIdx? (fun ev => (isSame ev (getFromFilePath f)).isSome) with
      | none => log ++
          [addElement (getFromFilePath f) ⟨a, f, 0, false, fo, some n, some (n + k.timeToKeep)⟩]
      | some i => modifyAt log i (fun ex =>
          addElement (if isSame ex (getFromFilePath f) = some false
            then replaceEv ex (getFromFilePath f) else ex)
            ⟨a, f, 0, false, fo, some n, some (n + k.timeToKeep)⟩) := rfl

/-- `isSame` recognizes an event (in either order branch) exactly when the ids
agree and the start times are strictly less than the 15-second window apart. -/
theorem isSame_isSome_iff (A e2 : MotionEvent) (t1 t2 : Int)
    (hA : A.startTime = some t1) (he : e2.startTime = some t2) :
    (isSame A e2).isSome = true ↔
      (e2.eventId = A.eventId ∧ (t2 - t1).natAbs < 15000) := by
  unfold isSame
  by_cases hid : e2.eventId = A.eventId
  · rw [if_neg (by simp [hid])]
    rw [hA, he]
    simp only [dateGe, dateLe, dateLt, addMs, Option.map_some', longesEventDurationMs]
    split_ifs with hb1 hb2
    · simp only [Bool.and_eq_true, decide_eq_true_eq] at hb1
      simp [hid]
      omega
    · simp only [Bool.and_eq_true, decide_eq_true_eq] at hb2
      simp [hid]
      omega
    · simp only [Bool.and_eq_true, decide_eq_true_eq] at hb1 hb2
      simp [hid]
      omega
  · rw [if_pos (by simp [hid])]
    simp [hid]

/-- C2: two `markFileForAction` registrations land in the same aggregate
exactly when their resolved event ids are equal and their resolved start times
are strictly less than the 15-second longest-event-duration window apart: on an
empty registry, such a pair yields one aggregate containing both files, while
any other pair (equal ids at-or-beyond the window apart, or distinct ids)
yields two distinct aggregates, no aggregate containing both files. -/
theorem c2_merge_iff_same_window (f1 f2 a1 a2 : Str) (k1 k2 : ArchiveConfig)
    (fo1 fo2 : Option Str) (n1 n2 t1 t2 : Int)
    (h1 : (getFromFilePath f1).startTime = some t1)
    (h2 : (getFromFilePath f2).startTime = some t2) :
    ((getFromFilePath f2).eventId = (getFromFilePath f1).eventId ∧ (t2 - t1).natAbs < 15000 →
      (markFileForAction (markFileForAction [] f1 a1 k1 fo1 n1) f2 a2 k2 fo2 n2).length = 1 ∧
      ∃ ev ∈ markFileForAction (markFileForAction [] f1 a1 k1 fo1 n1) f2 a2 k2 fo2 n2,
        f1 ∈ filesOf ev ∧ f2 ∈ filesOf ev) ∧
    (¬((getFromFilePath f2).eventId = (getFromFilePath f1).eventId ∧
        (t2 - t1).natAbs < 15000) →
      (markFileForAction (markFileForAction [] f1 a1 k1 fo1 n1) f2 a2 k2 fo2 n2).length = 2 ∧
      ¬ ∃ ev ∈ markFileForAction (markFileForAction [] f1 a1 k1 fo1 n1) f2 a2 k2 fo2 n2,
        f1 ∈ filesOf ev ∧ f2 ∈ filesOf ev) := by
  have hA : markFileForAction [] f1 a1 k1 fo1 n1 =
      [{ getFromFilePath f1 with
         elements := [⟨a1, f1, 0, false, fo1, some n1, some (n1 + k1.timeToKeep)⟩] }] := rfl
  set el1 : Element := ⟨a1, f1, 0, false, fo1, some n1, some (n1 + k1.timeToKeep)⟩ with hel1
  set el2 : Element := ⟨a2, f2, 0, false, fo2, some n2, some (n2 + k2.timeToKeep)⟩ with hel2
  set A : MotionEvent := { getFromFilePath f1 with elements := [el1] } with hAdef
  have hAst : A.startTime = some t1 := h1
  have hsame : (isSame A (getFromFilePath f2)).isSome = true ↔
      ((getFromFilePath f2).eventId = (getFromFilePath f1).eventId ∧
        (t2 - t1).natAbs < 15000) :=
    isSame_isSome_iff A (getFromFilePath f2) t1 t2 hAst h2
  constructor
  · intro hcond
    have hp : (isSame A (getFromFilePath f2)).isSome = true := hsame.mpr hcond
    have hfind : List.findIdx? (fun ev => (isSame ev (getFromFilePath f2)).isSome) [A] =
        some 0 := by
      simp [List.findIdx?, hp]
    have hL : markFileForAction (markFileForAction [] f1 a1 k1 fo1 n1) f2 a2 k2 fo2 n2 =
        [addElement (if isSame A (getFromFilePath f2) = some false
          then replaceEv A (getFromFilePath f2) else A) el2] := by
      rw [hA, markFileForAction_eq, hfind]
      rfl
    set B : MotionEvent := if isSame A (getFromFilePath f2) = some false
      then replaceEv A (getFromFilePath f2) else A with hBdef
    have hBel : B.elements = [el1] := by
      rw [hBdef]
      split <;> rfl
    refine ⟨by rw [hL]; rfl, addElement B el2, by rw [hL]; exact List.mem_singleton.mpr rfl, ?_, ?_⟩
    · have := (addElement_files B el2).2 el1 (by rw [hBel]; exact List.mem_singleton.mpr rfl)
      simpa using this
    · have := (addElement_files B el2).1
      simpa using this
  · intro hcond
    have hp : (isSame A (getFromFilePath f2)).isSome = false := by
      rw [Bool.eq_false_iff]
      intro hc
      exact hcond (hsame.mp hc)
    have hfind : List.findIdx? (fun ev => (isSame ev (getFromFilePath f2)).isSome) [A] =
        none := by
      simp [List.findIdx?, hp]
    have hL : markFileForAction (markFileForAction [] f1 a1 k1 fo1 n1) f2 a2 k2 fo2 n2 =
        [A, { getFromFilePath f2 with elements := [el2] }] := by
      rw [hA, markFileForAction_eq, hfind]
      rfl
    have hne : ¬ f1 = f2 := by
      intro hff
      apply hcond
      subst hff
      rw [h1] at h2
      refine ⟨rfl, ?_⟩
      have : t1 = t2 := by injection h2
      omega
    refine ⟨by rw [hL]; rfl, ?_⟩
    rintro ⟨ev, hev, hf1, hf2⟩
    rw [hL] at hev
    rcases List.mem_cons.mp hev with rfl | hev2
    · have : f2 = f1 := by simpa [filesOf, hAdef, hel1] using hf2
      exact hne this.symm
    · rcases List.mem_cons.mp hev2 with rfl | hnil
      · have : f1 = f2 := by simpa [filesOf, hel2] using hf1
        exact hne this
      · simp at hnil

/-- Witness for C2: two files with the same prefix whose timestamps are 10
seconds apart merge into a single aggregate holding both. -/
theorem c2_witness :
    (markFileForAction
      (markFileForAction [] (strLit "cam1_20230101120000.jpg") strRemove
        ⟨true, 0, false⟩ none 0)
      (strLit "cam1_20230101120010.jpg") strMove ⟨true, 0, false⟩ none 0).length = 1 ∧
    ∃ ev ∈ markFileForAction
      (markFileForAction [] (strLit "cam1_20230101120000.jpg") strRemove
        ⟨true, 0, false⟩ none 0)
      (strLit "cam1_20230101120010.jpg") strMove ⟨true, 0, false⟩ none 0,
      strLit "cam1_20230101120000.jpg" ∈ filesOf ev ∧
      strLit "cam1_20230101120010.jpg" ∈ filesOf ev :=
  (c2_merge_iff_same_window (strLit "cam1_20230101120000.jpg")
    (strLit "cam1_20230101120010.jpg") strRemove strMove ⟨true, 0, false⟩ ⟨true, 0, false⟩
    none none 0 0 1672574397000 1672574407000 (by decide) (by decide)).1
    (by constructor
        · decide
        · decide)

/-! ## C6 -/

/-- C6: for an eligible event, the event-wide intent is `move` when at least
one registered entry's action is `move` and `remove` otherwise; under a `move`
intent every registered entry — including those registered as `remove` — is
actioned through the move primitive, and every discovered-but-unregistered
companion follows the event-wide intent (moved under a `move` intent, removed
under a `remove` intent), never an action of its own. -/
theorem c6_eventwide_intent (ev : MotionEvent) (possibleFiles : List Str)
    (mv : Str → Str → Bool) (rm : Str → Bool) (now : Int)
    (hca : canAction ev now = true) :
    ((∃ e ∈ ev.elements, e.action = strMove) →
      (archive ev possibleFiles mv rm now true).2 =
        ev.elements.map (fun e =>
          FileOp.move e.file
            (getDestinationFolderForFile ev e.file (jsOr (destFolder ev) e.folder))) ++
        (possibleFiles.filter
          (fun f => (ev.elements.filter (fun e => e.file = f)).length = 0)).map
          (fun f => FileOp.move f (getDestinationFolderForFile ev f (destFolder ev)))) ∧
    ((∀ e ∈ ev.elements, ¬ e.action = strMove) →
      (archive ev possibleFiles mv rm now true).2 =
        ev.elements.map (fun e => FileOp.remove e.file) ++
        (possibleFiles.filter
          (fun f => (ev.elements.filter (fun e => e.file = f)).length = 0)).map
          FileOp.remove) := by
  have hskip : (true && !canAction ev now) = false := by rw [hca]; rfl
  constructor
  · intro hex
    have hmain : (0 < (ev.elements.filter (fun f => f.action = strMove)).length) := by
      rw [List.length_pos, ne_eq, List.filter_eq_nil_iff]
      push_neg
      rcases hex with ⟨e, he, hact⟩
      exact ⟨e, he, by simpa using hact⟩
    unfold archive
    rw [hskip]
    simp only [Bool.false_eq_true, if_false, if_pos hmain]
    congr 1
    apply List.map_congr_left
    intro e _
    unfold elementOp
    rw [if_pos (Or.inr rfl)]
  · intro hall
    have hmain : ¬ (0 < (ev.elements.filter (fun f => f.action = strMove)).length) := by
      intro hpos
      rw [List.length_pos, ne_eq, List.filter_eq_nil_iff] at hpos
      push_neg at hpos
      rcases hpos with ⟨e, he, hact⟩
      exact hall e he (by simpa using hact)
    unfold archive
    rw [hskip]
    simp only [Bool.false_eq_true, if_false, if_neg hmain]
    congr 1
    apply List.map_congr_left
    intro e he
    unfold elementOp
    have hne2 : ¬(e.action = strMove ∨ strRemove = strMove) := by
      rintro (hc | hc)
      · exact hall e he hc
      · exact absurd hc (by decide)
    rw [if_neg hne2]

/-- Concrete event with one `remove` and one `move` entry for the C6 witness. -/
def evC6 : MotionEvent :=
  { eventId := strLit "cam1_", startTime := some 1672574397000, basePath := strLit "in"
    elements :=
      [{ action := strRemove, file := strLit "in/cam1_20230101120000.jpg", attempt := 0,
         success := false, folder := none, dateAdded := some 0, dateToArchive := some 0 },
       { action := strMove, file := strLit "in/cam1_20230101120002.jpg", attempt := 0,
         success := false, folder := some ArchiveFolder, dateAdded := some 0,
         dateToArchive := some 0 }] }

/-- Witness for C6: with a merged remove+move event, both registered files and
the discovered companion are all moved. -/
theorem c6_witness :
    (archive evC6 [strLit "in/cam1_20230101120001.mp4"] (fun _ _ => true) (fun _ => true)
      5 true).2 =
      evC6.elements.map (fun e =>
        FileOp.move e.file
          (getDestinationFolderForFile evC6 e.file (jsOr (destFolder evC6) e.folder))) ++
      ([strLit "in/cam1_20230101120001.mp4"].filter
        (fun f => (evC6.elements.filter (fun e => e.file = f)).length = 0)).map
        (fun f => FileOp.move f (getDestinationFolderForFile evC6 f (destFolder evC6))) :=
  (c6_eventwide_intent evC6 [strLit "in/cam1_20230101120001.mp4"] (fun _ _ => true)
    (fun _ => true) 5 (by decide)).1
    ⟨{ action := strMove, file := strLit "in/cam1_20230101120002.jpg", attempt := 0,
       success := false, folder := some ArchiveFolder, dateAdded := some 0,
       dateToArchive := some 0 }, by decide, by decide⟩

/-! ## C1 -/

/-- `lastIndexOf?` finds nothing exactly when the character is absent. -/
theorem lastIndexOf?_eq_none_iff (l : Str) (c : Char) :
    lastIndexOf? l c = none ↔ c ∉ l := by
  induction l with
  | nil => simp [lastIndexOf?]
  | cons x xs ih =>
    unfold lastIndexOf?
    cases h : lastIndexOf? xs c with
    | some i =>
      have hc : c ∈ xs := by
        by_contra hcon
        rw [← ih] at hcon
        rw [h] at hcon
        exact absurd hcon (by simp)
      simp [List.mem_cons, hc]
    | none =>
      have hc : c ∉ xs := ih.mp h
      by_cases hx : x = c
      · simp [hx, List.mem_cons]
      · simp [hx, List.mem_cons, hc]
        exact fun hcx => hx hcx.symm

/-- The last occurrence of `c` in `a ++ c :: b` is at index `a.length` when
`c` does not occur in `b`. -/
theorem lastIndexOf?_append_last (a b : Str) (c : Char) (hb : c ∉ b) :
    lastIndexOf? (a ++ c :: b) c = some a.length := by
  induction a with
  | nil =>
    simp only [List.nil_append]
    unfold lastIndexOf?
    rw [(lastIndexOf?_eq_none_iff b c).mpr hb]
    simp
  | cons x xs ih =>
    simp only [List.cons_append]
    unfold lastIndexOf?
    rw [ih]
    simp

/-- `jsSubstring` with in-range forward indices is a take-then-drop. -/
theorem jsSubstring_eval (l : Str) (a b : Nat) (hab : a ≤ b) (hb : b ≤ l.length) :
    jsSubstring l (a : Int) (b : Int) = (l.take b).drop a := by
  have h1 : (max 0 (min (a : Int) (l.length : Int))).toNat = a := by omega
  have h2 : (max 0 (min (b : Int) (l.length : Int))).toNat = b := by omega
  simp only [jsSubstring]
  rw [h1, h2, if_pos hab]

/-- A timestamp that parses is 14 digits long. -/
theorem parseTimestamp_digits (s : Str) (t : Int) (h : parseTimestamp s = some t) :
    s.length = 14 ∧ ∀ c ∈ s, c.isDigit = true := by
  unfold parseTimestamp at h
  split at h
  · rename_i hcond
    refine ⟨hcond.1, fun c hc => ?_⟩
    have := hcond.2
    rw [List.all_eq_true] at this
    exact this c hc
  · exact absurd h (by simp)

/-- C1 (amended): for a file path `dir/<pre>_<ts>.<ext>` with a parseable
14-digit timestamp `ts` and a 3-character extension, `getFromFilePath` yields
an event whose start time is the parsed timestamp minus 3 seconds, whose base
directory is the file's parent directory `dir`, and whose event id is the
prefix up to and including the last underscore with the *first occurrence* of
the configured postfix marker `_att` removed (the marker is removed wherever
it first occurs in the prefix, which coincides with stripping it from the tail
position before the final underscore whenever it occurs only there). -/
theorem c1_event_identity (dir pre ts ext : Str) (t : Int)
    (hdir : dir ≠ [])
    (hpre : '/' ∉ pre)
    (hextsl : '/' ∉ ext) (hextus : '_' ∉ ext) (hextlen : ext.length = 3)
    (hts : parseTimestamp ts = some t) :
    getFromFilePath (dir ++ '/' :: (pre ++ '_' :: (ts ++ '.' :: ext))) =
      { eventId := replaceFirst (pre ++ ['_']) (strLit "_att") []
        startTime := some (t - 3000)
        basePath := dir
        elements := [] } := by
  obtain ⟨htslen, htsdig⟩ := parseTimestamp_digits ts t hts
  have htsus : '_' ∉ ts := fun hc => by
    have := htsdig '_' hc
    exact absurd this (by decide)
  have htssl : '/' ∉ ts := fun hc => by
    have := htsdig '/' hc
    exact absurd this (by decide)
  set base : Str := pre ++ '_' :: (ts ++ '.' :: ext) with hbase
  have hnoslash : '/' ∉ base := by
    rw [hbase]
    simp only [List.mem_append, List.mem_cons]
    rintro (h | h | h | h | h)
    · exact hpre h
    · exact absurd h (by decide)
    · exact htssl h
    · exact absurd h (by decide)
    · exact hextsl h
  have hsl : lastIndexOf? (dir ++ '/' :: base) '/' = some dir.length :=
    lastIndexOf?_append_last dir base '/' hnoslash
  have hbn : basename (dir ++ '/' :: base) = base := by
    unfold basename
    simp only [hsl]
    rw [show dir ++ '/' :: base = (dir ++ ['/']) ++ base by simp,
      show dir.length + 1 = (dir ++ ['/']).length by simp]
    exact List.drop_left _ _
  have hdn : dirname (dir ++ '/' :: base) = dir := by
    unfold dirname
    simp only [hsl]
    rw [if_neg (by simpa using hdir)]
    exact List.take_left' rfl
  have hus : lastIndexOf? base '_' = some pre.length := by
    rw [hbase]
    apply lastIndexOf?_append_last
    simp only [List.mem_append, List.mem_cons]
    rintro (h | h | h)
    · exact htsus h
    · exact absurd h (by decide)
    · exact hextus h
  have hjl : jsLastIndexOf base '_' = (pre.length : Int) := by
    unfold jsLastIndexOf
    simp only [hus]
  have hblen : base.length = pre.length + 19 := by
    rw [hbase]
    simp only [List.length_append, List.length_cons, htslen, hextlen]
  have hdate : jsSubstring base ((pre.length : Int) + 1) ((base.length : Int) - 4) = ts := by
    rw [hblen]
    rw [show ((pre.length : Int) + 1) = ((pre.length + 1 : Nat) : Int) by push_cast; ring,
      show (((pre.length + 19 : Nat) : Int) - 4) = ((pre.length + 15 : Nat) : Int) by
        push_cast; ring]
    rw [jsSubstring_eval base (pre.length + 1) (pre.length + 15) (by omega)
      (by rw [hblen]; omega)]
    rw [show base = (pre ++ '_' :: ts) ++ '.' :: ext by simp [hbase]]
    rw [List.take_left'
      (by simp only [List.length_append, List.length_cons, htslen])]
    rw [show pre ++ '_' :: ts = (pre ++ ['_']) ++ ts by simp]
    exact List.drop_left' (by simp)
  have hid : jsSubstring base 0 ((pre.length : Int) + 1) = pre ++ ['_'] := by
    rw [show (0 : Int) = ((0 : Nat) : Int) by rfl,
      show ((pre.length : Int) + 1) = ((pre.length + 1 : Nat) : Int) by push_cast; ring]
    rw [jsSubstring_eval base 0 (pre.length + 1) (by omega) (by rw [hblen]; omega)]
    rw [List.drop_zero]
    rw [show base = (pre ++ ['_']) ++ (ts ++ '.' :: ext) by simp [hbase]]
    exact List.take_left' (by simp)
  have hstart : addMs (some t) (-3000) = some (t - 3000) := by
    simp only [addMs, Option.map_some']
    rw [Int.sub_eq_add_neg]
  show MotionEvent.mk _ _ _ _ = _
  rw [hbn, hjl, hdate, hid, hdn, hts, hstart]
  rfl

/-- Witness for the amended C1 at the standard example filename. -/
theorem c1_witness :
    getFromFilePath (strLit "aiinput" ++ '/' ::
        (strLit "cam1" ++ '_' :: (strLit "20230101120000" ++ '.' :: strLit "jpg"))) =
      { eventId := replaceFirst (strLit "cam1" ++ ['_']) (strLit "_att") []
        startTime := some (1672574400000 - 3000)
        basePath := strLit "aiinput"
        elements := [] } :=
  c1_event_identity (strLit "aiinput") (strLit "cam1") (strLit "20230101120000")
    (strLit "jpg") 1672574400000 (by decide) (by decide) (by decide) (by decide)
    (by decide) (by decide)

/-- C1 counterexample: for `d/x_att_y_20230101120000.jpg` the prefix up to the
last underscore is `x_att_y_`, whose tail carries no postfix marker, yet the
resolver removes the marker's first occurrence from the middle and returns
`x_y_` — so the event id is not the prefix with the marker stripped from its
tail. -/
theorem c1_postfix_not_tail_cex :
    (getFromFilePath (strLit "d/x_att_y_20230101120000.jpg")).eventId = strLit "x_y_" ∧
    strLit "x_y_" ≠ strLit "x_att_y_" := by decide

/-! ## C5 -/

/-- The claim's example file, registered for archival. -/
def fileC5 : Str := strLit "cam1_20230101120000.jpg"

/-- Archive configuration with retention 0. -/
def cfgC5 : ArchiveConfig := { enabled := true, timeToKeep := 0, semiMatchedArchiveEnabled := false }

/-- Registry after registering `fileC5` for archival at time 0
(`processTrigger` without a `predictionsWithFlags` argument). -/
def logC5 : List MotionEvent := processTrigger [] fileC5 (some cfgC5) none 0

/-- One tick at time 0 with no companion files found and always-succeeding
primitives. -/
def tickC5 : List MotionEvent × List FileOp :=
  tick logC5 (fun _ => []) (fun _ _ => true) (fun _ => true) 0 false

/-- The disk (relative to the storage root) after the tick, starting from just
the original file. -/
def diskC5 : List Str := applyOps [fileC5] tickC5.2

/-- C5 counterexample: the tick fully succeeds (the registry drains), yet the
claimed destination `archive/2023/01/01/cam1_/120000/cam1_20230101120000.jpg`
does not exist — the event-time path component is computed from the event's
start time, which is the parsed timestamp minus 3 seconds (11:59:57), not the
raw timestamp (12:00:00). -/
theorem c5_destination_time_cex :
    tickC5.1 = [] ∧
    strLit "archive/2023/01/01/cam1_/120000/cam1_20230101120000.jpg" ∉ diskC5 := by decide

/-- C5 (amended): registering `cam1_20230101120000.jpg` for archival with
retention 0 and no companion files results, after one successful tick, in the
file existing at `archive/2023/01/01/cam1_/115957/cam1_20230101120000.jpg`
under the storage root and no longer existing at its original location — the
destination is `<folder>/<YYYY/MM/DD>/<eventId>/<HHmmss>/<originalBasename>`
computed from the event's start time, i.e. the parsed timestamp minus the
3-second lead-in. -/
theorem c5_archive_layout :
    diskC5 = [strLit "archive/2023/01/01/cam1_/115957/cam1_20230101120000.jpg"] ∧
    fileC5 ∉ diskC5 := by decide

end ArchiveManagerSpec
